import Mathlib

/-!
Verification of the charmed-openstack-upgrader core against its
natural-language specification.

The development shallowly embeds the two source modules:
  cou/steps/plan.py        (upgrade plan builder)
  cou/utils/juju_utils.py  (connection manager, action gateway, waiter)
Pure functions become Lean functions; the imperative loops become
recursions driven by explicit observation traces; exceptions become
`Except`; the module-level logger becomes an explicit list of
`(level, message)` entries threaded through the results.
-/

set_option autoImplicit false

namespace Cou

/-- Severity levels of the logger calls actually made by the embedded code. -/
inductive LogLevel where
  | debug
  | error
deriving DecidableEq, Repr

/-- One logger call: severity and rendered message. -/
abbrev LogEntry := LogLevel × String

/-- Modelled from the spec: the `UpgradeStep` tree node of `cou/steps`
(this class is not under `src/`; the spec describes it as a node with a
description, a `parallel` flag, an optional action, and an ordered list of
children). The optional action is represented by the name of the wrapped
callable. -/
structure UpgradeStep where
  description : String
  parallel : Bool
  function : Option String
  children : List UpgradeStep
deriving Repr

/-- Modelled from the spec: `add_step` appends a child, preserving insertion
order of the ordered `children` sequence. -/
def UpgradeStep.add_step (s child : UpgradeStep) : UpgradeStep :=
  { s with children := s.children ++ [child] }

/-- Modelled from the spec: truthiness of a per-application contribution as
used by the guard `if app_upgrade_plan:` in `create_upgrade_group`. A null
result is falsy, and per the spec a node with neither action nor children is
an empty contribution that is dropped, never added. -/
def stepTruthy : Option UpgradeStep → Bool
  | none => false
  | some s => s.function.isSome || !s.children.isEmpty

/-- Guarded append of a per-application contribution to the group node,
mirroring `if app_upgrade_plan: group_upgrade_plan.add_step(app_upgrade_plan)`. -/
def addContribution (acc : UpgradeStep) (p : Option UpgradeStep) : UpgradeStep :=
  match p with
  | some s => if stepTruthy (some s) then acc.add_step s else acc
  | none => acc

/-- Application variant: `isinstance(app, OpenStackSubordinateApplication)`
decides membership of the subordinate variant; everything else is principal. -/
inductive AppKind where
  | principal
  | subordinate
deriving DecidableEq, Repr

/-- Outcome of one call `app.generate_upgrade_plan(target)`: a returned value
(possibly `None`), the catalogued `HaltUpgradePlanGeneration` signal, or any
other exception. -/
inductive GenOutcome where
  | steps (p : Option UpgradeStep)
  | halt (msg : String)
  | err (msg : String)

/-- An application as consumed by the plan builder: a name, a variant tag and
its `generate_upgrade_plan` behaviour for each target. -/
structure App where
  name : String
  kind : AppKind
  gen : String → GenOutcome

/-- The `Analysis` collaborator, read-only: the resolved next release of the
current cloud release (absent attribute is `none`) and the ordered list of
applications. -/
structure Analysis where
  next_release : Option String
  apps : List App

/-- Target resolution of `generate_plan`:
`target = getattr(analysis_result.current_cloud_os_release, "next_release", None)`
followed by the falsy test `if not target` (absent attribute or empty string
are both falsy). -/
def resolvedTarget (a : Analysis) : Option String :=
  match a.next_release with
  | none => none
  | some t => if t = "" then none else some t

/-- The filter `isinstance(app, OpenStackSubordinateApplication)`. -/
def isSubordinate (app : App) : Bool :=
  app.kind = AppKind.subordinate

/-- Errors that abort plan generation: `NoTargetError`, or a re-raised
per-application exception (tagged with the application name and message). -/
inductive PlanError where
  | noTarget (msg : String)
  | appError (appName msg : String)
deriving DecidableEq, Repr

/-- Message of the debug log emitted when an application halts plan
generation (quotes of the original format string omitted). -/
def haltLogMsg (appName msg : String) : String :=
  appName ++ " halted the upgrade planning generation: " ++ msg

/-- Message of the error log emitted when an application raises an
uncatalogued exception (quotes of the original format string omitted). -/
def errLogMsg (appName msg : String) : String :=
  "Cannot generate upgrade plan for " ++ appName ++ ": " ++ msg

/-- Log entries a single application contributes in the halt case. -/
def haltLogs (t : String) (app : App) : List LogEntry :=
  match app.gen t with
  | .halt m => [(LogLevel.debug, haltLogMsg app.name m)]
  | _ => []

/-- The child step a single application contributes, when any. -/
def contribOf (t : String) (app : App) : Option UpgradeStep :=
  match app.gen t with
  | .steps p => if stepTruthy p then p else none
  | _ => none

/-- The `for app in filter(filter_function, analysis_result.apps)` loop body
of `create_upgrade_group`, recursing over the already-filtered application
list while accumulating the group node. Returns the list of applications
whose `generate_upgrade_plan` was invoked (in order), the log entries, and
either the finished group or the re-raised error. -/
def processApps (t : String) (acc : UpgradeStep) :
    List App → List String × List LogEntry × Except PlanError UpgradeStep
  | [] => ([], [], .ok acc)
  | app :: rest =>
    match app.gen t with
    | .err m => ([app.name], [(LogLevel.error, errLogMsg app.name m)], .error (.appError app.name m))
    | .halt m =>
      let r := processApps t (addContribution acc none) rest
      (app.name :: r.1, (LogLevel.debug, haltLogMsg app.name m) :: r.2.1, r.2.2)
    | .steps p =>
      let r := processApps t (addContribution acc p) rest
      (app.name :: r.1, r.2.1, r.2.2)

/-- Embedding of `create_upgrade_group(analysis_result, target, description,
filter_function)`: build the non-parallel group node and process every
application satisfying the filter. -/
def create_upgrade_group (a : Analysis) (target description : String)
    (filterFn : App → Bool) :
    List String × List LogEntry × Except PlanError UpgradeStep :=
  processApps target (UpgradeStep.mk description false none []) (a.apps.filter filterFn)

/-- The backup leaf step added first to the top-level plan. -/
def backupStep : UpgradeStep :=
  UpgradeStep.mk "backup mysql databases" false (some "backup") []

/-- Embedding of `generate_plan(analysis_result)`: resolve the target (raising
`NoTargetError` when falsy), build the non-parallel root, add backup, the
principal group, then the subordinate group, propagating any group error.
Returns the invoked applications, the logs, and the result. -/
def generate_plan (a : Analysis) :
    List String × List LogEntry × Except PlanError UpgradeStep :=
  match resolvedTarget a with
  | none => ([], [], .error (.noTarget "Cannot find target to upgrade."))
  | some target =>
    let plan := UpgradeStep.mk "Top level plan" false none []
    let plan := plan.add_step backupStep
    let rp := create_upgrade_group a target "Principal(s) upgrade plan"
      (fun app => !(isSubordinate app))
    match rp.2.2 with
    | .error e => (rp.1, rp.2.1, .error e)
    | .ok gp =>
      let plan := plan.add_step gp
      let rs := create_upgrade_group a target "Subordinate(s) upgrade plan"
        (fun app => isSubordinate app)
      match rs.2.2 with
      | .error e => (rp.1 ++ rs.1, rp.2.1 ++ rs.2.1, .error e)
      | .ok gs => (rp.1 ++ rs.1, rp.2.1 ++ rs.2.1, .ok (plan.add_step gs))

mutual

/-- Preorder flattening of a step tree: the node itself followed by the
flattening of its children, in order. Used to phrase appears-before
properties of the generated plan. -/
def flatten : UpgradeStep → List UpgradeStep
  | .mk d p f cs => .mk d p f cs :: flattenList cs

/-- Flattening of a list of step trees, in order. -/
def flattenList : List UpgradeStep → List UpgradeStep
  | [] => []
  | s :: ss => flatten s ++ flattenList ss

end

/-! Embedding of `cou/utils/juju_utils.py`: connection manager. -/

/-- The maximized frame size `JUJU_MAX_FRAME_SIZE = 2**30` passed to every
freshly constructed model handle. -/
def JUJU_MAX_FRAME_SIZE : Nat := 2 ^ 30

/-- A control-plane model handle as observed by the connection manager:
the two liveness observations the code reads, the frame size the handle was
constructed with, and the name of the model it is connected to. -/
structure JujuModel where
  is_connected : Bool
  connIsOpen : Bool
  maxFrameSize : Nat
  name : String
deriving DecidableEq, Repr

/-- Embedding of `_is_model_disconnected`:
`not (model.is_connected() and model.connection().is_open)`. -/
def is_model_disconnected (m : JujuModel) : Bool :=
  !(m.is_connected && m.connIsOpen)

/-- The handle produced by `Model(max_frame_size=JUJU_MAX_FRAME_SIZE)` followed
by `model.connect(model_name)`: connected, open, maximized frame size, bound
to the requested name or to the model currently in scope when the name is
absent. -/
def freshModel (modelName : Option String) (currentInScope : String) : JujuModel :=
  { is_connected := true
    connIsOpen := true
    maxFrameSize := JUJU_MAX_FRAME_SIZE
    name := modelName.getD currentInScope }

/-- Embedding of `_async_get_model`: the global `CURRENT_MODEL` cache is the
explicit `st` argument, and the pair returned is (value returned to the
caller, new value of `CURRENT_MODEL`). The body mirrors the source line by
line: copy the cache into the local `model`; if that local is non-null and
disconnected, best-effort disconnect it and null the local; then, only when
the global `CURRENT_MODEL` itself is null, construct and connect a fresh
handle and cache it; finally return the local. -/
def async_get_model (st : Option JujuModel) (modelName : Option String)
    (currentInScope : String) : Option JujuModel × Option JujuModel :=
  let model : Option JujuModel :=
    match st with
    | some m => if is_model_disconnected m then none else some m
    | none => none
  match st with
  | none =>
    let fresh := freshModel modelName currentInScope
    (some fresh, some fresh)
  | some _ => (model, st)

/-- A concrete stale cached handle: constructed earlier with the maximized
frame size, now observed disconnected. -/
def staleModel : JujuModel :=
  { is_connected := false, connIsOpen := false
    maxFrameSize := JUJU_MAX_FRAME_SIZE, name := "m" }

/-! Embedding of the action gateway: result normalisation and action errors. -/

/-- An action result record. The normalisation code touches exactly the four
keys `stderr`, `stdout`, `Stderr`, `Stdout`; every other key (for example
`Code`) passes through untouched and is kept in `rest`. A field holds `none`
when the key is absent from the record. -/
structure ActionResults where
  stderr : Option String
  stdout : Option String
  Stderr : Option String
  Stdout : Option String
  rest : List (String × String)
deriving DecidableEq, Repr

/-- Python truthiness of the record (the guard `if results:`): a dict is falsy
exactly when it has no keys. -/
def ActionResults.isEmpty (r : ActionResults) : Bool :=
  r.stderr.isNone && r.stdout.isNone && r.Stderr.isNone && r.Stdout.isNone &&
    r.rest.isEmpty

/-- The empty record `{}` returned for a falsy input. -/
def emptyResults : ActionResults := ⟨none, none, none, none, []⟩

/-- Python truthiness of `results.get(key)`: absent keys give `None` (falsy)
and present keys are falsy exactly when the value is the empty string. -/
def truthy : Option String → Bool
  | none => false
  | some s => !(s == "")

/-- The second loop body of `_normalise_action_results` for one lowercase and
capitalized key pair: if the lowercase value is truthy and the capitalized one
is not, copy it over, else if the capitalized one is truthy and the lowercase
one is not, copy the other way. -/
def crossPair (lc uc : Option String) : Option String × Option String :=
  if truthy lc && !(truthy uc) then (lc, lc)
  else if truthy uc && !(truthy lc) then (uc, uc)
  else (lc, uc)

/-- Both loops of `_normalise_action_results` restricted to one key pair: the
first loop defaults each of the two keys to the empty string
(`results[key] = results.get(key, "")`), the second cross-populates them. The
two pairs (stderr, Stderr) and (stdout, Stdout) are processed independently by
the source loops, so the whole normalisation is the pairwise map below. -/
def normPair (lc uc : Option String) : Option String × Option String :=
  crossPair (some (lc.getD "")) (some (uc.getD ""))

/-- Embedding of `_normalise_action_results`: a falsy record yields `{}`;
otherwise the four keys are defaulted to the empty string and the two casings
are cross-populated, with all remaining keys untouched. -/
def normalise_action_results (r : ActionResults) : ActionResults :=
  if r.isEmpty then emptyResults
  else
    { stderr := (normPair r.stderr r.Stderr).1
      Stderr := (normPair r.stderr r.Stderr).2
      stdout := (normPair r.stdout r.Stdout).1
      Stdout := (normPair r.stdout r.Stdout).2
      rest := r.rest }

/-- An action object: its id and the status it reports once
`await action_obj.wait()` has brought it to a terminal state. -/
structure Action where
  id : Nat
  terminalStatus : String
deriving DecidableEq, Repr

/-- The `ActionFailed` exception payload: the action object and the
best-effort output fetched for it. -/
structure ActionFailedErr where
  action : Action
  output : Option String
deriving DecidableEq, Repr

/-- Embedding of `_check_action_error`: wait for the action to reach its
terminal state, and only when `raise_on_failure` is set and the terminal
status is not "completed", fetch the recorded output (a `KeyError` from
`get_action_output` is tolerated by substituting `None`) and raise
`ActionFailed` with the action and that output. `getOutput` is the behaviour
of `model.get_action_output(action_obj.id)`. -/
def check_action_error (a : Action) (raiseOnFailure : Bool)
    (getOutput : Except Unit String) : Except ActionFailedErr Unit :=
  if raiseOnFailure && !(a.terminalStatus == "completed") then
    let output : Option String :=
      match getOutput with
      | .ok o => some o
      | .error _ => none
    .error ⟨a, output⟩
  else .ok ()

/-- Embedding of the tail of `async_run_action` once unit resolution and
dispatch have produced the action object `a`: run the action-error check with
the caller's `raise_on_failure` flag and return the action object. -/
def async_run_action (a : Action) (raiseOnFailure : Bool)
    (getOutput : Except Unit String) : Except ActionFailedErr Action :=
  match check_action_error a raiseOnFailure getOutput with
  | .ok _ => .ok a
  | .error e => .error e

/-! Embedding of the stabilization waiter `JujuWaiter`. Wall-clock readings of
`datetime.now()` are naturals (seconds); every call the loop makes to the
control plane is driven by an explicit observation trace. -/

/-- Total wait timeout `JujuWaiter.DEFAULT_TIMEOUT`. -/
def DEFAULT_TIMEOUT : Nat := 3600

/-- Continuous idle window `JujuWaiter.MODEL_IDLE_PERIOD`. -/
def MODEL_IDLE_PERIOD : Nat := 30

/-- Per-poll wait bound `JujuWaiter.JUJU_IDLE_TIMEOUT`. -/
def JUJU_IDLE_TIMEOUT : Nat := 40

/-- The four catalogued fatal fleet errors of `juju.errors`. -/
inductive FatalError where
  | machineError
  | agentError
  | unitError
  | appError
deriving DecidableEq, Repr

/-- Outcome of one `model.wait_for_idle` poll: the model went idle, a fatal
fleet error was raised, or some other exception was raised. -/
inductive PollOutcome where
  | idle
  | fatal (e : FatalError)
  | exc (msg : String)
deriving DecidableEq, Repr

/-- One iteration of the wait loop as observed from outside: the reconnect
attempts `_ensure_model_connected` runs before the poll (each attempt records
the `datetime.now()` read by `_check_time` and whether `connect_model`
succeeded; an empty list means the model was already observed connected), the
poll outcome, and the `datetime.now()` read by the `_check_time` call that
follows a non-fatal poll exception. -/
structure WaitIter where
  conn : List (Nat × Bool)
  poll : PollOutcome
  checkNow : Nat
deriving DecidableEq, Repr

/-- Terminal outcome of a `wait` call on a finite observation trace. -/
inductive WaitResult where
  | stabilized
  | timedOut
  | fatalErr (e : FatalError)
  | outOfTrace
deriving DecidableEq, Repr

/-- Result of running the wait loop: terminal outcome, number of
`wait_for_idle` polls executed, and the log entries emitted. -/
structure WaitRun where
  result : WaitResult
  polls : Nat
  logs : List LogEntry
deriving DecidableEq, Repr

/-- Embedding of `_check_time`: true exactly when
`datetime.now() - self.start_time > self.timeout`, in which case the source
raises `TimeoutException`. -/
def checkTime (start timeout now : Nat) : Bool :=
  now - start > timeout

/-- Debug log emitted when a reconnect attempt raises a non-timeout error. -/
def connRetryLog : LogEntry :=
  (LogLevel.debug, "Model has unexpected exception while connecting, retrying")

/-- Debug log emitted when the model is observed idle. -/
def idleLog (modelName : String) : LogEntry :=
  (LogLevel.debug,
    "Model " ++ modelName ++ " is idle for " ++ toString MODEL_IDLE_PERIOD ++ " seconds.")

/-- Debug log emitted when a poll raises a non-fatal exception. -/
def pollExcLog : LogEntry :=
  (LogLevel.debug, "Unknown error while waiting to stabilize.")

/-- Debug log emitted on entry to `wait`. -/
def waitingLog (timeout : Nat) : LogEntry :=
  (LogLevel.debug, "Waiting to stabilize in " ++ toString timeout ++ " seconds")

/-- Embedding of `_ensure_model_connected`: while the model is observed
disconnected, disconnect it best-effort, check the deadline (re-raising a
timeout), and attempt `connect_model`, logging and retrying on any other
error. The trace lists the reconnect attempts; exhausting it means the model
was observed connected. Returns the logs and either success or the timeout. -/
def ensureModelConnected (start timeout : Nat) :
    List (Nat × Bool) → List LogEntry × Except Unit Unit
  | [] => ([], .ok ())
  | (now, connectOk) :: rest =>
    if checkTime start timeout now then ([], .error ())
    else
      let r := ensureModelConnected start timeout rest
      ((if connectOk then ([] : List LogEntry) else [connRetryLog]) ++ r.1, r.2)

/-- The `while True` loop of `JujuWaiter.wait`: ensure the model is connected
(a timeout there propagates), poll for idleness, return on idle, re-raise one
of the four fatal errors immediately, and on any other exception log it,
check the deadline and retry. -/
def waitLoop (start timeout : Nat) (modelName : String) : List WaitIter → WaitRun
  | [] => ⟨.outOfTrace, 0, []⟩
  | it :: rest =>
    let c := ensureModelConnected start timeout it.conn
    match c.2 with
    | .error _ => ⟨.timedOut, 0, c.1⟩
    | .ok _ =>
      match it.poll with
      | .idle => ⟨.stabilized, 1, c.1 ++ [idleLog modelName]⟩
      | .fatal e => ⟨.fatalErr e, 1, c.1⟩
      | .exc _ =>
        if checkTime start timeout it.checkNow then ⟨.timedOut, 1, c.1 ++ [pollExcLog]⟩
        else
          let r := waitLoop start timeout modelName rest
          ⟨r.result, r.polls + 1, c.1 ++ [pollExcLog] ++ r.logs⟩

/-- The waiter's per-instance state: the model name captured at construction,
the stored timeout and the stored start timestamp. -/
structure JujuWaiter where
  modelName : String
  timeout : Nat
  startTime : Nat
deriving DecidableEq, Repr

/-- Embedding of `JujuWaiter.__init__`: capture the model name, store the
default timeout of 3600 seconds and the construction timestamp. -/
def JujuWaiter.init (modelName : String) (now : Nat) : JujuWaiter :=
  ⟨modelName, DEFAULT_TIMEOUT, now⟩

/-- Embedding of `JujuWaiter.wait(timeout_seconds)`: reset the start time to
now, overwrite the stored timeout only when `timeout_seconds` is truthy
(non-zero), then run the loop against the observation trace. Returns the run
and the updated waiter state. -/
def JujuWaiter.wait (w : JujuWaiter) (timeoutSeconds : Nat) (now : Nat)
    (trace : List WaitIter) : WaitRun × JujuWaiter :=
  let w' : JujuWaiter :=
    { w with startTime := now
             timeout := if timeoutSeconds ≠ 0 then timeoutSeconds else w.timeout }
  let run := waitLoop w'.startTime w'.timeout w'.modelName trace
  (⟨run.result, run.polls, waitingLog w'.timeout :: run.logs⟩, w')

/-- Concatenated halt logs of a list of applications, in iteration order. -/
def haltLogsAll (t : String) : List App → List LogEntry
  | [] => []
  | a :: r => haltLogs t a ++ haltLogsAll t r

/-- Sample contributed step of the sample principal application. -/
def stepA : UpgradeStep := ⟨"upgrade-A", false, some "upgrade", []⟩

/-- Sample contributed step of the sample subordinate application. -/
def stepB : UpgradeStep := ⟨"upgrade-B", false, some "upgrade", []⟩

/-- Sample principal application that halts plan generation. -/
def appHalting : App := ⟨"halting-app", .principal, fun _ => .halt "nothing to do"⟩

/-- Sample principal application that returns no contribution. -/
def appNoop : App := ⟨"noop-app", .principal, fun _ => .steps none⟩

/-- Sample principal application contributing one step. -/
def appA : App := ⟨"app-a", .principal, fun _ => .steps (some stepA)⟩

/-- Sample subordinate application contributing one step. -/
def appB : App := ⟨"app-b", .subordinate, fun _ => .steps (some stepB)⟩

/-- Sample principal application raising an uncatalogued error. -/
def appBad : App := ⟨"bad-app", .principal, fun _ => .err "boom"⟩

/-- Sample analysis on which plan generation succeeds. -/
def sampleAnalysis : Analysis := ⟨some "victoria", [appHalting, appNoop, appA, appB]⟩

/-- Sample analysis containing an application that raises. -/
def badAnalysis : Analysis := ⟨some "victoria", [appHalting, appBad, appA, appB]⟩

/-! Theorems. -/

theorem processApps_spec (t : String) (apps : List App) :
    ∀ acc : UpgradeStep,
    (∀ app ∈ apps, ∀ m, app.gen t ≠ .err m) →
    processApps t acc apps =
      (apps.map App.name, haltLogsAll t apps,
       .ok (UpgradeStep.mk acc.description acc.parallel acc.function
         (acc.children ++ apps.filterMap (contribOf t)))) := by
  induction apps with
  | nil => intro acc _; cases acc; simp [processApps, haltLogsAll]
  | cons app rest ih =>
    intro acc h
    have hrest : ∀ a ∈ rest, ∀ m, a.gen t ≠ .err m :=
      fun a ha m => h a (List.mem_cons_of_mem _ ha) m
    have happ : ∀ m, app.gen t ≠ .err m := h app (List.mem_cons_self _ _)
    cases hg : app.gen t with
    | err m => exact absurd hg (happ m)
    | halt m =>
      simp [processApps, hg, addContribution, ih _ hrest, haltLogsAll, haltLogs, contribOf]
    | steps p =>
      cases p with
      | none =>
        simp [processApps, hg, addContribution, ih _ hrest, haltLogsAll, haltLogs,
          contribOf, stepTruthy]
      | some s =>
        by_cases hs : stepTruthy (some s)
        · simp [processApps, hg, addContribution, hs, ih _ hrest, haltLogsAll, haltLogs,
            contribOf, UpgradeStep.add_step]
        · simp [processApps, hg, addContribution, hs, ih _ hrest, haltLogsAll, haltLogs,
            contribOf]

theorem processApps_err (t : String) (pre : List App) :
    ∀ (acc : UpgradeStep) (bad : App) (post : List App) (m : String),
    (∀ app ∈ pre, ∀ m2, app.gen t ≠ .err m2) →
    bad.gen t = .err m →
    processApps t acc (pre ++ bad :: post) =
      (pre.map App.name ++ [bad.name],
       haltLogsAll t pre ++ [(LogLevel.error, errLogMsg bad.name m)],
       .error (.appError bad.name m)) := by
  induction pre with
  | nil => intro acc bad post m _ hbad; simp [processApps, hbad, haltLogsAll]
  | cons app rest ih =>
    intro acc bad post m h hbad
    have hrest : ∀ a ∈ rest, ∀ m2, a.gen t ≠ .err m2 :=
      fun a ha m2 => h a (List.mem_cons_of_mem _ ha) m2
    have happ : ∀ m2, app.gen t ≠ .err m2 := h app (List.mem_cons_self _ _)
    cases hg : app.gen t with
    | err m2 => exact absurd hg (happ m2)
    | halt m2 =>
      simp [processApps, hg, ih _ bad post m hrest hbad, haltLogsAll, haltLogs]
    | steps p =>
      simp [processApps, hg, ih _ bad post m hrest hbad, haltLogsAll, haltLogs]

/-- C4: for every Analysis whose current release has no resolvable
`next_release` (attribute absent or falsy), `generate_plan` fails with
`NoTargetError` before building any step: no application is invoked, no log
is emitted and no plan (hence no backup step) is produced. -/
theorem generate_plan_no_target (a : Analysis) (h : resolvedTarget a = none) :
    generate_plan a = ([], [], .error (.noTarget "Cannot find target to upgrade.")) := by
  simp [generate_plan, h]

theorem generate_plan_no_target_witness :
    resolvedTarget ⟨none, []⟩ = none ∧
    generate_plan ⟨none, []⟩ =
      ([], [], .error (.noTarget "Cannot find target to upgrade.")) :=
  ⟨rfl, generate_plan_no_target ⟨none, []⟩ rfl⟩

/-- C5: evaluation of `_async_get_model` at the failing state. With a cached
handle that is observed disconnected, the source nulls only the local
variable, never the global cache, so the reconnect branch guarded by
`if CURRENT_MODEL is None` is not taken: the call returns null and the stale
handle stays cached, contradicting the declared `-> Model` return and the
claimed disconnect-drop-reconnect behaviour. -/
theorem async_get_model_stale_returns_none :
    is_model_disconnected staleModel = true ∧
    async_get_model (some staleModel) (some "m") "m" = (none, some staleModel) :=
  ⟨rfl, rfl⟩

/-- C9: with `raise_on_failure` false (the default), `_check_action_error`
never raises `ActionFailed` whatever the terminal status and whatever
`get_action_output` does, and `async_run_action` still returns the action
object even when the terminal state is not "completed". -/
theorem async_run_action_no_raise (a : Action) (getOutput : Except Unit String) :
    check_action_error a false getOutput = .ok () ∧
    async_run_action a false getOutput = .ok a := by
  refine ⟨?_, ?_⟩ <;> simp [async_run_action, check_action_error]

/-- C2: in `create_upgrade_group`, when no filtered application raises an
uncatalogued error, the group collects exactly the truthy contributions of the
filtered applications in iteration order: a halting application contributes no
child and adds one debug-level log while iteration continues to the later
siblings, and a null or empty contribution is skipped silently, adding neither
a child nor a log. -/
theorem create_upgrade_group_halt_and_empty_skipped (a : Analysis)
    (t d : String) (f : App → Bool)
    (h : ∀ app ∈ a.apps.filter f, ∀ m, app.gen t ≠ .err m) :
    create_upgrade_group a t d f =
      ((a.apps.filter f).map App.name,
       haltLogsAll t (a.apps.filter f),
       .ok (UpgradeStep.mk d false none ((a.apps.filter f).filterMap (contribOf t)))) := by
  simpa [create_upgrade_group] using
    processApps_spec t (a.apps.filter f) (UpgradeStep.mk d false none []) h

theorem create_upgrade_group_halt_witness :
    create_upgrade_group sampleAnalysis "victoria" "Principal(s) upgrade plan"
        (fun app => !(isSubordinate app)) =
      (["halting-app", "noop-app", "app-a"],
       [(LogLevel.debug, haltLogMsg "halting-app" "nothing to do")],
       .ok (UpgradeStep.mk "Principal(s) upgrade plan" false none [stepA])) := by
  have h : ∀ app ∈ sampleAnalysis.apps.filter (fun app => !(isSubordinate app)),
      ∀ m, app.gen "victoria" ≠ GenOutcome.err m := by
    intro app ha m hc
    simp [sampleAnalysis, appHalting, appNoop, appA, appB, isSubordinate] at ha
    rcases ha with h1 | h1 | h1 <;> subst h1 <;>
      simp [appHalting, appNoop, appA] at hc
  exact (create_upgrade_group_halt_and_empty_skipped sampleAnalysis "victoria"
    "Principal(s) upgrade plan" (fun app => !(isSubordinate app)) h).trans (by rfl)

/-- C3: an application whose generation raises an uncatalogued exception makes
`create_upgrade_group` log one error-level entry and re-raise the same error
immediately: no later application of the group is invoked, and the error
aborts the whole `generate_plan` call, so no application of the later
(subordinate) group is invoked and the caller sees the original error. -/
theorem create_upgrade_group_error_aborts (a : Analysis) (t : String)
    (pre post : List App) (bad : App) (m : String)
    (ht : resolvedTarget a = some t)
    (hsplit : a.apps.filter (fun app => !(isSubordinate app)) = pre ++ bad :: post)
    (hpre : ∀ app ∈ pre, ∀ m2, app.gen t ≠ .err m2)
    (hbad : bad.gen t = .err m) :
    create_upgrade_group a t "Principal(s) upgrade plan"
        (fun app => !(isSubordinate app)) =
      (pre.map App.name ++ [bad.name],
       haltLogsAll t pre ++ [(LogLevel.error, errLogMsg bad.name m)],
       .error (.appError bad.name m)) ∧
    generate_plan a =
      (pre.map App.name ++ [bad.name],
       haltLogsAll t pre ++ [(LogLevel.error, errLogMsg bad.name m)],
       .error (.appError bad.name m)) := by
  have h1 : create_upgrade_group a t "Principal(s) upgrade plan"
      (fun app => !(isSubordinate app)) =
      (pre.map App.name ++ [bad.name],
       haltLogsAll t pre ++ [(LogLevel.error, errLogMsg bad.name m)],
       .error (.appError bad.name m)) := by
    unfold create_upgrade_group
    rw [hsplit]
    exact processApps_err t pre (UpgradeStep.mk "Principal(s) upgrade plan" false none [])
      bad post m hpre hbad
  refine ⟨h1, ?_⟩
  simp [generate_plan, ht, h1]

theorem create_upgrade_group_error_witness :
    create_upgrade_group badAnalysis "victoria" "Principal(s) upgrade plan"
        (fun app => !(isSubordinate app)) =
      (["halting-app", "bad-app"],
       [(LogLevel.debug, haltLogMsg "halting-app" "nothing to do"),
        (LogLevel.error, errLogMsg "bad-app" "boom")],
       .error (.appError "bad-app" "boom")) ∧
    generate_plan badAnalysis =
      (["halting-app", "bad-app"],
       [(LogLevel.debug, haltLogMsg "halting-app" "nothing to do"),
        (LogLevel.error, errLogMsg "bad-app" "boom")],
       .error (.appError "bad-app" "boom")) := by
  have hpre : ∀ app ∈ [appHalting], ∀ m2, app.gen "victoria" ≠ GenOutcome.err m2 := by
    intro app ha m2 hc
    simp at ha
    subst ha
    simp [appHalting] at hc
  have e := create_upgrade_group_error_aborts badAnalysis "victoria"
    [appHalting] [appA] appBad "boom" rfl rfl hpre rfl
  exact ⟨e.1.trans (by rfl), e.2.trans (by rfl)⟩

/-- C1: with a resolvable next release, `generate_plan` returns the
non-parallel root whose children are, in this fixed order, the backup leaf
step, the group produced by `create_upgrade_group` over principal
applications and the group produced over subordinate applications; in the
preorder flattening of the resulting tree every node of the principal group
therefore appears strictly before every node of the subordinate group. -/
theorem generate_plan_structure (a : Analysis) (t : String)
    (invP invS : List String) (logsP logsS : List LogEntry) (gp gs : UpgradeStep)
    (ht : resolvedTarget a = some t)
    (hp : create_upgrade_group a t "Principal(s) upgrade plan"
        (fun app => !(isSubordinate app)) = (invP, logsP, .ok gp))
    (hs : create_upgrade_group a t "Subordinate(s) upgrade plan"
        (fun app => isSubordinate app) = (invS, logsS, .ok gs)) :
    generate_plan a =
      (invP ++ invS, logsP ++ logsS,
       .ok (UpgradeStep.mk "Top level plan" false none [backupStep, gp, gs])) ∧
    flatten (UpgradeStep.mk "Top level plan" false none [backupStep, gp, gs]) =
      (UpgradeStep.mk "Top level plan" false none [backupStep, gp, gs]
          :: flatten backupStep)
        ++ flatten gp ++ flatten gs := by
  constructor
  · simp [generate_plan, ht, hp, hs, UpgradeStep.add_step]
  · simp [flatten, flattenList, List.append_assoc]

theorem generate_plan_structure_witness :
    generate_plan sampleAnalysis =
      (["halting-app", "noop-app", "app-a"] ++ ["app-b"],
       [(LogLevel.debug, haltLogMsg "halting-app" "nothing to do")] ++ [],
       .ok (UpgradeStep.mk "Top level plan" false none
         [backupStep,
          UpgradeStep.mk "Principal(s) upgrade plan" false none [stepA],
          UpgradeStep.mk "Subordinate(s) upgrade plan" false none [stepB]])) ∧
    flatten (UpgradeStep.mk "Top level plan" false none
        [backupStep,
         UpgradeStep.mk "Principal(s) upgrade plan" false none [stepA],
         UpgradeStep.mk "Subordinate(s) upgrade plan" false none [stepB]]) =
      (UpgradeStep.mk "Top level plan" false none
          [backupStep,
           UpgradeStep.mk "Principal(s) upgrade plan" false none [stepA],
           UpgradeStep.mk "Subordinate(s) upgrade plan" false none [stepB]]
          :: flatten backupStep)
        ++ flatten (UpgradeStep.mk "Principal(s) upgrade plan" false none [stepA])
        ++ flatten (UpgradeStep.mk "Subordinate(s) upgrade plan" false none [stepB]) :=
  generate_plan_structure sampleAnalysis "victoria"
    ["halting-app", "noop-app", "app-a"] ["app-b"]
    [(LogLevel.debug, haltLogMsg "halting-app" "nothing to do")] []
    (UpgradeStep.mk "Principal(s) upgrade plan" false none [stepA])
    (UpgradeStep.mk "Subordinate(s) upgrade plan" false none [stepB])
    rfl rfl rfl

theorem getD_empty_of_not_truthy (a : Option String) (h : truthy a = false) :
    a.getD "" = "" := by
  cases a with
  | none => rfl
  | some s => simpa [truthy] using h

theorem normPair_isSome (a b : Option String) :
    (normPair a b).1.isSome = true ∧ (normPair a b).2.isSome = true := by
  unfold normPair crossPair
  split_ifs <;> simp

theorem normPair_truthy_eq (a b : Option String) :
    truthy (normPair a b).1 = truthy (normPair a b).2 := by
  unfold normPair crossPair
  cases h1 : truthy (some (a.getD "")) <;> cases h2 : truthy (some (b.getD "")) <;>
    simp [h1, h2]

theorem normPair_cross_left (a b : Option String) (ha : truthy a = true)
    (hb : truthy b = false) : normPair a b = (a, a) := by
  cases a with
  | none => simp [truthy] at ha
  | some s =>
    have hb' : b.getD "" = "" := getD_empty_of_not_truthy b hb
    simp [normPair, crossPair, hb', truthy, ha]
    simp [truthy] at ha
    simp [ha]

theorem normPair_cross_right (a b : Option String) (ha : truthy a = false)
    (hb : truthy b = true) : normPair a b = (b, b) := by
  cases b with
  | none => simp [truthy] at hb
  | some s =>
    have ha' : a.getD "" = "" := getD_empty_of_not_truthy a ha
    simp [normPair, crossPair, ha', truthy, hb]
    simp [truthy] at hb
    simp [hb]

theorem normPair_both_falsy (a b : Option String) (ha : truthy a = false)
    (hb : truthy b = false) : normPair a b = (some "", some "") := by
  have ha' : a.getD "" = "" := getD_empty_of_not_truthy a ha
  have hb' : b.getD "" = "" := getD_empty_of_not_truthy b hb
  simp [normPair, crossPair, ha', hb', truthy]

theorem crossPair_some_idem (x y : String) (h : truthy (some x) = truthy (some y)) :
    normPair (some x) (some y) = (some x, some y) := by
  unfold normPair crossPair
  simp only [Option.getD_some]
  cases hx : truthy (some x) <;> simp_all

theorem normPair_idem (a b : Option String) :
    normPair (normPair a b).1 (normPair a b).2 = normPair a b := by
  obtain ⟨h1, h2⟩ := normPair_isSome a b
  obtain ⟨x, hx⟩ := Option.isSome_iff_exists.mp h1
  obtain ⟨y, hy⟩ := Option.isSome_iff_exists.mp h2
  have ht := normPair_truthy_eq a b
  rw [hx, hy] at ht
  have hab : normPair a b = (some x, some y) := by
    rw [← hx, ← hy]
  rw [hab]
  exact crossPair_some_idem x y ht

/-- C7 counterexample: normalisation of the empty record returns the empty
record, whose four keys are all absent — so the claim that every input record
comes out with all four keys present fails on the empty record. -/
theorem normalise_empty_counterexample :
    normalise_action_results emptyResults = emptyResults ∧
    (normalise_action_results emptyResults).stdout.isSome = false ∧
    (normalise_action_results emptyResults).Stdout.isSome = false ∧
    (normalise_action_results emptyResults).stderr.isSome = false ∧
    (normalise_action_results emptyResults).Stderr.isSome = false :=
  ⟨rfl, rfl, rfl, rfl, rfl⟩

/-- C7 (amended): for every non-empty input record, normalisation returns a
record with all four keys stderr, stdout, Stderr, Stdout present, each pair
defaulting to the empty string when neither casing held a truthy value, and
the two casings cross-populated from whichever one was truthy; in particular
an input containing only stdout yields a record where Stdout equals stdout
and both stderr and Stderr equal the empty string. -/
theorem normalise_nonempty_normalises (r : ActionResults)
    (h : r.isEmpty = false) (s : String) :
    ((normalise_action_results r).stderr.isSome = true ∧
     (normalise_action_results r).stdout.isSome = true ∧
     (normalise_action_results r).Stderr.isSome = true ∧
     (normalise_action_results r).Stdout.isSome = true) ∧
    (truthy (normalise_action_results r).stderr
        = truthy (normalise_action_results r).Stderr ∧
     truthy (normalise_action_results r).stdout
        = truthy (normalise_action_results r).Stdout) ∧
    (truthy r.stdout = true → truthy r.Stdout = false →
      (normalise_action_results r).stdout = r.stdout ∧
      (normalise_action_results r).Stdout = r.stdout) ∧
    (truthy r.Stdout = true → truthy r.stdout = false →
      (normalise_action_results r).stdout = r.Stdout ∧
      (normalise_action_results r).Stdout = r.Stdout) ∧
    (truthy r.stderr = true → truthy r.Stderr = false →
      (normalise_action_results r).stderr = r.stderr ∧
      (normalise_action_results r).Stderr = r.stderr) ∧
    (truthy r.Stderr = true → truthy r.stderr = false →
      (normalise_action_results r).stderr = r.Stderr ∧
      (normalise_action_results r).Stderr = r.Stderr) ∧
    (truthy r.stdout = false → truthy r.Stdout = false →
      (normalise_action_results r).stdout = some "" ∧
      (normalise_action_results r).Stdout = some "") ∧
    (truthy r.stderr = false → truthy r.Stderr = false →
      (normalise_action_results r).stderr = some "" ∧
      (normalise_action_results r).Stderr = some "") ∧
    normalise_action_results ⟨none, some s, none, none, []⟩ =
      ⟨some "", some s, some "", some s, []⟩ := by
  have hnorm : normalise_action_results r =
      { stderr := (normPair r.stderr r.Stderr).1
        stdout := (normPair r.stdout r.Stdout).1
        Stderr := (normPair r.stderr r.Stderr).2
        Stdout := (normPair r.stdout r.Stdout).2
        rest := r.rest } := by
    simp [normalise_action_results, h]
  refine ⟨?_, ?_, ?_, ?_, ?_, ?_, ?_, ?_, ?_⟩
  · rw [hnorm]
    exact ⟨(normPair_isSome r.stderr r.Stderr).1, (normPair_isSome r.stdout r.Stdout).1,
      (normPair_isSome r.stderr r.Stderr).2, (normPair_isSome r.stdout r.Stdout).2⟩
  · rw [hnorm]
    exact ⟨normPair_truthy_eq r.stderr r.Stderr, normPair_truthy_eq r.stdout r.Stdout⟩
  · intro h1 h2
    rw [hnorm]
    simp [normPair_cross_left r.stdout r.Stdout h1 h2]
  · intro h1 h2
    rw [hnorm]
    simp [normPair_cross_right r.stdout r.Stdout h2 h1]
  · intro h1 h2
    rw [hnorm]
    simp [normPair_cross_left r.stderr r.Stderr h1 h2]
  · intro h1 h2
    rw [hnorm]
    simp [normPair_cross_right r.stderr r.Stderr h2 h1]
  · intro h1 h2
    rw [hnorm]
    simp [normPair_both_falsy r.stdout r.Stdout h1 h2]
  · intro h1 h2
    rw [hnorm]
    simp [normPair_both_falsy r.stderr r.Stderr h1 h2]
  · by_cases hs : s = ""
    · subst hs
      rfl
    · simp [normalise_action_results, ActionResults.isEmpty, normPair, crossPair, truthy, hs]

theorem normalise_nonempty_witness :
    (ActionResults.isEmpty ⟨none, some "out", none, none, []⟩) = false ∧
    (normalise_action_results ⟨none, some "out", none, none, []⟩ : ActionResults) =
      ⟨some "", some "out", some "", some "out", []⟩ ∧
    (normalise_action_results ⟨none, some "out", none, none, []⟩).Stdout =
      (⟨none, some "out", none, none, []⟩ : ActionResults).stdout := by
  have e := normalise_nonempty_normalises ⟨none, some "out", none, none, []⟩ rfl "out"
  exact ⟨rfl, e.2.2.2.2.2.2.2.2, (e.2.2.1 rfl rfl).2⟩

/-- C10: action-result normalisation is idempotent — applying it to its own
output yields the same record as applying it once. -/
theorem normalise_idempotent (r : ActionResults) :
    normalise_action_results (normalise_action_results r) = normalise_action_results r := by
  by_cases h : r.isEmpty = true
  · have h1 : normalise_action_results r = emptyResults := by
      unfold normalise_action_results
      rw [if_pos h]
    rw [h1]
    rfl
  · have h' : r.isEmpty = false := by
      revert h
      cases r.isEmpty <;> simp
    have hnorm : normalise_action_results r =
        { stderr := (normPair r.stderr r.Stderr).1
          stdout := (normPair r.stdout r.Stdout).1
          Stderr := (normPair r.stderr r.Stderr).2
          Stdout := (normPair r.stdout r.Stdout).2
          rest := r.rest } := by
      simp [normalise_action_results, h']
    obtain ⟨x1, e1⟩ := Option.isSome_iff_exists.mp (normPair_isSome r.stderr r.Stderr).1
    rw [hnorm]
    rw [normalise_action_results]
    rw [if_neg (by simp [ActionResults.isEmpty, e1])]
    simp [normPair_idem]

theorem waitLoop_fatal_propagates (start timeout : Nat) (name : String)
    (pre : List WaitIter) (it : WaitIter) (post : List WaitIter) (e : FatalError)
    (hpre : ∀ j ∈ pre, j.conn = [] ∧ (∃ m, j.poll = .exc m) ∧
      checkTime start timeout j.checkNow = false)
    (hconn : it.conn = []) (hpoll : it.poll = .fatal e) :
    waitLoop start timeout name (pre ++ it :: post) =
      ⟨.fatalErr e, pre.length + 1, List.replicate pre.length pollExcLog⟩ := by
  induction pre with
  | nil =>
    simp [waitLoop, hconn, hpoll, ensureModelConnected]
  | cons j rest ih =>
    obtain ⟨hc, ⟨m, hm⟩, hck⟩ := hpre j (List.mem_cons_self _ _)
    have hrest : ∀ x ∈ rest, x.conn = [] ∧ (∃ m2, x.poll = .exc m2) ∧
        checkTime start timeout x.checkNow = false :=
      fun x hx => hpre x (List.mem_cons_of_mem _ hx)
    simp [waitLoop, hc, hm, hck, ensureModelConnected, ih hrest, List.replicate_succ]

/-- C6: during `JujuWaiter.wait`, a poll raising one of the four catalogued
fatal fleet errors ends the wait immediately, propagating that same error
unchanged with zero additional polls whatever the remaining trace holds,
while every earlier poll that raised a non-fatal exception within the
deadline was logged at debug level and retried. -/
theorem wait_fatal_propagates (w : JujuWaiter) (ts now : Nat)
    (pre : List WaitIter) (it : WaitIter) (post : List WaitIter) (e : FatalError)
    (hpre : ∀ j ∈ pre, j.conn = [] ∧ (∃ m, j.poll = .exc m) ∧
      checkTime now (if ts ≠ 0 then ts else w.timeout) j.checkNow = false)
    (hconn : it.conn = []) (hpoll : it.poll = .fatal e) :
    (w.wait ts now (pre ++ it :: post)).1 =
      ⟨.fatalErr e, pre.length + 1,
       waitingLog (if ts ≠ 0 then ts else w.timeout)
         :: List.replicate pre.length pollExcLog⟩ := by
  have h := waitLoop_fatal_propagates now (if ts ≠ 0 then ts else w.timeout)
    w.modelName pre it post e hpre hconn hpoll
  simp only [ne_eq, ite_not] at h
  simp [JujuWaiter.wait, h]

theorem wait_fatal_witness :
    ((JujuWaiter.init "m" 0).wait 100 0
        ([⟨[], .exc "drop", 10⟩] ++
          (⟨[], .fatal .unitError, 0⟩ : WaitIter) :: [⟨[], .idle, 0⟩])).1 =
      ⟨.fatalErr .unitError, 2, [waitingLog 100, pollExcLog]⟩ := by
  have hpre : ∀ j ∈ [(⟨[], .exc "drop", 10⟩ : WaitIter)],
      j.conn = [] ∧ (∃ m, j.poll = PollOutcome.exc m) ∧
      checkTime 0 (if (100 : Nat) ≠ 0 then 100 else (JujuWaiter.init "m" 0).timeout)
        j.checkNow = false := by
    intro j hj
    simp at hj
    subst hj
    exact ⟨rfl, ⟨"drop", rfl⟩, rfl⟩
  have h := wait_fatal_propagates (JujuWaiter.init "m" 0) 100 0
    [⟨[], .exc "drop", 10⟩] ⟨[], .fatal .unitError, 0⟩ [⟨[], .idle, 0⟩]
    .unitError hpre rfl rfl
  exact h.trans (by rfl)

/-- C8 counterexample: a waiter whose previous call used `timeout_seconds = 5`
and whose next call passes `timeout_seconds = 0` times out 6 elapsed seconds
into the second call, although the deadline the claim prescribes for that
call (start time plus the 3600-second default) has not expired. -/
theorem wait_zero_reuses_previous_timeout :
    (((JujuWaiter.init "m" 0).wait 5 0 []).2.wait 0 100
        [⟨[], .exc "late", 106⟩]).1.result = WaitResult.timedOut ∧
    checkTime 100 3600 106 = false ∧
    (((JujuWaiter.init "m" 0).wait 5 0 []).2.wait 0 100
        [⟨[], .exc "late", 106⟩]).2.timeout = 5 :=
  ⟨rfl, rfl, rfl⟩

/-- C8 (amended): every `wait(timeout_seconds)` call resets the stored start
time to now and uses, for all deadline checks of that call, the effective
timeout `timeout_seconds` when non-zero and the waiter's currently stored
timeout when zero or falsy; the stored timeout is 3600 on a freshly
constructed waiter (so the claimed 3600-second fallback holds exactly when no
earlier call overwrote it with a non-zero value). -/
theorem wait_effective_deadline (w : JujuWaiter) (ts now checkN : Nat)
    (m name : String) (trace : List WaitIter) :
    (w.wait ts now trace).2.startTime = now ∧
    (w.wait ts now trace).2.timeout = (if ts ≠ 0 then ts else w.timeout) ∧
    (w.wait ts now [⟨[], .exc m, checkN⟩]).1.result =
      (if checkTime now (if ts ≠ 0 then ts else w.timeout) checkN
        then WaitResult.timedOut else WaitResult.outOfTrace) ∧
    (JujuWaiter.init name now).timeout = DEFAULT_TIMEOUT := by
  refine ⟨rfl, rfl, ?_, rfl⟩
  simp [JujuWaiter.wait, waitLoop, ensureModelConnected]
  split <;> split <;> rfl

end Cou
